import Mathlib

/-!
Verification of the `test_imports` package: a shallow embedding of
`src/test_imports/utils.py` (name normalization), `src/test_imports/states.py`
(bootstrap states and the state stack) and `src/test_imports/worker.py`
(the interception worker), together with theorems settling the frozen
claims about the package.

Qualified module names are modelled as `List Char`; Python's `sys.modules`
as a map `Name → Option Addr`; module objects live in a heap
`Addr → PyModule` so that object identity (aliasing) and in-place mutation
are represented faithfully.
-/

set_option maxHeartbeats 1000000

namespace TestImports

/-- A qualified module name (a Python `str`). -/
abbrev Name := List Char

/-- Heap address of a Python object (models object identity). -/
abbrev Addr := Nat

/-! ## Matcher semantics (`utils.normalize_name` and Python `re`)

`normalize_name` turns a literal string into the regex
`".*".join(re.escape(s) for s in name.split("*")) + "$"` and matches it
with `Pattern.match` (anchored at the start).  Python `re` semantics:
`.` does not match a newline, and `$` matches at the end of the string or
just before a newline that ends the string. -/

/-- Python `str.split(sep)` for a one-character separator: splits on every
occurrence, keeping empty fragments (`"".split(sep) == [""]`). -/
def pySplit (sep : Char) : Name → List Name
  | [] => [[]]
  | c :: rest =>
    match pySplit sep rest with
    | [] => [[]]
    | f :: fs => if c = sep then [] :: f :: fs else (c :: f) :: fs

/-- Python `re` end anchor `$` (no MULTILINE): succeeds on the remaining
input `t` iff `t` is empty or is a single trailing newline. -/
def endAnchor (t : Name) : Bool := t = [] || t = ['\n']

/-- Matches the regex `".*" ++ f ++ REST` against the input, where `msRest`
decides `REST` on the remainder: `.*` may consume any run of non-newline
characters, after which the literal fragment `f` and then `REST` must match. -/
def matchTail (msRest : Name → Bool) (f : Name) : Name → Bool
  | [] => f.isPrefixOf [] && msRest (List.drop f.length [])
  | c :: t2 =>
    (f.isPrefixOf (c :: t2) && msRest ((c :: t2).drop f.length)) ||
    (decide (c ≠ '\n') && matchTail msRest f t2)

/-- Matches the regex `(".*" ++ f)* ++ "$"` for the fragment list `fs`:
each `.*` may consume any characters except newlines, each fragment is
matched literally (fragments are `re.escape`d in the source), and the end
anchor closes the pattern. -/
def matchStar : List Name → Name → Bool
  | [] => endAnchor
  | f :: rest => matchTail (matchStar rest) f

/-- Python `Pattern.match` (anchored at the start) of the compiled regex
`f₀ ++ ".*" ++ f₁ ++ ... ++ ".*" ++ fₖ ++ "$"`. -/
def reMatch (fs : List Name) (t : Name) : Bool :=
  match fs with
  | [] => endAnchor t
  | f :: rest => f.isPrefixOf t && matchStar rest (t.drop f.length)

/-- The matcher compiled by `normalize_name` from a literal string `name`:
split on the wildcard `*`, escape the fragments, join with `.*`, append `$`.
The result is the match set of the compiled pattern. -/
def normalizeString (name : Name) : Name → Bool :=
  reMatch (pySplit '*' name)

/-! ## Bootstrap states (`states.py`)

`sys.modules` is modelled as a map `Name → Option Addr` (dict equality in
Python compares key/value sets, which is pointwise equality of the map);
the two patched pipeline slots `importlib._bootstrap._find_and_load` and
`_handle_fromlist` hold opaque function objects, modelled by `Hook` ids.
`BootstrapState` objects are compared by Python object identity
(`list.index` on `_states`), modelled by a ghost id `sid` that callers of
`patchOp` supply fresh. -/

/-- Identity of a function object installed in a pipeline hook slot. -/
abbrev Hook := Nat

/-- The mutable globals touched by `states.py`: the module registry and the
two `importlib._bootstrap` hook slots. -/
structure SWorld where
  sysModules : Name → Option Addr
  fal : Hook
  hf : Hook

/-- `BootstrapState`: active flag, the two hooks captured at construction
time, the hide matchers, and the stashed (`_hidden_modules`) entries.
`sid` is the ghost object identity. -/
structure BState where
  sid : Nat
  active : Bool
  origFal : Hook
  origHf : Hook
  regexes : List (Name → Bool)
  hidden : Name → Option Addr

/-- `any(regex.match(name) for regex in regexes)`. -/
def anyMatch (rs : List (Name → Bool)) (n : Name) : Bool := rs.any (fun r => r n)

/-- `BootstrapState.__init__`: mark active, capture the currently installed
hook pair, then `_hide_modules`: every registry entry whose name matches a
regex is popped from `sys.modules` into `_hidden_modules`. -/
def bstateInit (sid : Nat) (regexes : List (Name → Bool)) (w : SWorld) :
    BState × SWorld :=
  let st : BState :=
    { sid := sid
      active := true
      origFal := w.fal
      origHf := w.hf
      regexes := regexes
      hidden := fun n => if anyMatch regexes n then w.sysModules n else none }
  (st, { w with
          sysModules := fun n => if anyMatch regexes n then none else w.sysModules n })

/-- The four statements of the `try` body of `BootstrapState.revert`, in
source order: unload matching modules, reinsert the stash, restore
`_find_and_load`, restore `_handle_fromlist`. -/
inductive RStep where
  | unload
  | restash
  | rehookFal
  | rehookHf
deriving DecidableEq

/-- Exceptions observable in the model. -/
inductive PyExc where
  | injected (tag : Nat) (msg : Name)
  | typeError
  | valueError
  | keyError
  | attributeError
  | revertError
  | stepExc
  | fuelOut
deriving DecidableEq

/-- Effect of one statement of the `revert` body on the mutable globals. -/
def runStep (st : BState) : RStep → SWorld → SWorld
  | .unload, w =>
    { w with sysModules := fun n => if anyMatch st.regexes n then none else w.sysModules n }
  | .restash, w =>
    { w with sysModules := fun n =>
        match st.hidden n with
        | some a => some a
        | none => w.sysModules n }
  | .rehookFal, w => { w with fal := st.origFal }
  | .rehookHf, w => { w with hf := st.origHf }

/-- Run the statements of the `revert` body in order.  `failing` is a fault
oracle: `failing s = true` means an exception is raised at statement `s`
(before its effect lands); the remaining statements are then not executed,
exactly as in Python.  Returns the resulting globals and whether an
exception was raised. -/
def revertBody (failing : RStep → Bool) (st : BState) :
    List RStep → SWorld → SWorld × Bool
  | [], w => (w, false)
  | s :: rest, w =>
    if failing s then (w, true)
    else revertBody failing st rest (runStep st s w)

/-- `BootstrapState.revert` under the fault oracle `failing`: raise
`TestImportsRevertError` if the state is not active; otherwise run the
`try` body, and in all cases (the `finally` clause) mark the state
inactive before returning or propagating the exception. -/
def revertF (failing : RStep → Bool) (st : BState) (w : SWorld) :
    Except PyExc Unit × BState × SWorld :=
  if st.active then
    let r := revertBody failing st [RStep.unload, .restash, .rehookFal, .rehookHf] w
    ((if r.2 then Except.error .stepExc else Except.ok ()), { st with active := false }, r.1)
  else (Except.error .revertError, st, w)

/-- The fault-free oracle: no statement of the revert body raises. -/
def noFault : RStep → Bool := fun _ => false

/-- `BootstrapStates.patch`: construct a `BootstrapState` (capturing hooks
and hiding matching registry entries), append it to the stack, then install
the session's two wrapper functions into the pipeline slots. -/
def patchOp (sid : Nat) (wFal wHf : Hook) (regexes : List (Name → Bool))
    (stk : List BState) (w : SWorld) : List BState × SWorld :=
  let p := bstateInit sid regexes w
  (stk ++ [p.1], { p.2 with fal := wFal, hf := wHf })

/-- `BootstrapStates.unpatch`: resolve the target state to an index via
`list.index` (object identity; `ValueError` is swallowed, making an unknown
target a silent no-op), revert every still-active state of the suffix in
reverse order, then truncate the suffix.  The third component is a ghost
trace of the `sid`s reverted, in order. -/
def unpatchOp (stk : List BState) (target : Option Nat) (w : SWorld) :
    List BState × SWorld × List Nat :=
  let idx : Option Nat :=
    match target with
    | none => some 0
    | some sid => stk.findIdx? (fun st => st.sid = sid)
  match idx with
  | none => (stk, w, [])
  | some i =>
    let step := fun (acc : SWorld × List Nat) (st : BState) =>
      if st.active then
        ((revertF noFault st acc.1).2.2, acc.2 ++ [st.sid])
      else acc
    let r := ((stk.drop i).reverse).foldl step (w, [])
    (stk.take i, r.1, r.2)

/-- Claim C3's scenario, composed from the source operations: activate
session A (state id `sidA`, wrappers `fA`/`hA`, hide matchers `MA`) on top
of an arbitrary stack `stk0` and globals `w0`, then activate session B,
then deactivate A by unwinding from A's state. -/
def lifoScenario (stk0 : List BState) (w0 : SWorld) (sidA sidB : Nat)
    (fA hA fB hB : Hook) (MA MB : List (Name → Bool)) :
    List BState × SWorld × List Nat :=
  let p1 := patchOp sidA fA hA MA stk0 w0
  let p2 := patchOp sidB fB hB MB p1.1 p1.2
  unpatchOp p2.1 (some sidA) p2.2

/-! ### Concrete inputs used by the revert theorems -/

/-- An active state stashing registry entry `"a" ↦ 1` with both original
hooks `0`. -/
def c2st : BState :=
  { sid := 0
    active := true
    origFal := 0
    origHf := 0
    regexes := []
    hidden := fun n => if n = ['a'] then some 1 else none }

/-- Globals whose hook slots hold the wrapper ids `5` and `6` and whose
registry is empty. -/
def c2w : SWorld := { sysModules := fun _ => none, fal := 5, hf := 6 }

/-- Fault oracle raising at step 1 (`_unload_matching_modules`). -/
def c2failing : RStep → Bool := fun s => s = RStep.unload

/-- An active state for the interrupted-revert claim. -/
def c10st : BState :=
  { sid := 3
    active := true
    origFal := 0
    origHf := 0
    regexes := []
    hidden := fun _ => none }

/-- Fault oracle raising at step 2 (the stash reinsertion). -/
def c10failing : RStep → Bool := fun s => s = RStep.restash

/-! ## The interception worker (`worker.py`)

Module objects live in a heap `Addr → PyModule`, so that a module stored
in `sys.modules` under several keys is one shared mutable object.  The
worker's matchers are modelled by their match functions (the only
operation the worker applies to a compiled pattern is `.match`).  The
captured prior hook `self._state.original_find_and_load` is an arbitrary
function `PriorFAL` supplied as a parameter, and `self._state.is_hidden`
is a predicate parameter; the `self._state is None` guard of the source
(marked no-cover) is outside the model.  The `debug` printing is advisory
output and is not modelled. -/

/-- A compiled matcher, identified with its match function. -/
abbrev Matcher := Name → Bool

/-- Python `name.rpartition(".")` reduced to the pair
(text before the last dot, text after it); when there is no dot the first
component is empty and the second is the whole name. -/
def rpartitionDot (n : Name) : Name × Name :=
  let leaf := (n.reverse.takeWhile (fun c => c ≠ '.')).reverse
  if leaf.length = n.length then ([], n)
  else (n.take (n.length - leaf.length - 1), leaf)

/-- A module spec (`__spec__`): its `name` field and whether the module is
a package (CPython derives `spec.parent` from these two). -/
structure ModSpec where
  sname : Name
  isPkg : Bool

/-- CPython `ModuleSpec.parent`: the spec name itself for a package, else
everything before the last dot of the spec name. -/
def ModSpec.parent (s : ModSpec) : Name :=
  if s.isPkg then s.sname else (rpartitionDot s.sname).1

/-- A module object: `__name__`, optional `__spec__`, optional `__all__`,
and its attribute dictionary (values are object addresses). -/
structure PyModule where
  mname : Name
  spec : Option ModSpec
  allAttr : Option (List Name)
  attrs : List (Name × Addr)

/-- `getattr(m, k, _UNDEF)`: `none` plays the `_UNDEF` sentinel. -/
def getattrD (m : PyModule) (k : Name) : Option Addr :=
  (m.attrs.find? (fun p => p.1 = k)).map Prod.snd

/-- `setattr`: replace the value in place if the key exists, else append. -/
def attrSet (l : List (Name × Addr)) (k : Name) (v : Addr) : List (Name × Addr) :=
  if l.any (fun p => p.1 = k) then
    l.map (fun p => if p.1 = k then (p.1, v) else p)
  else l ++ [(k, v)]

/-- `delattr`: `none` models the `AttributeError` raised when absent. -/
def attrDel (l : List (Name × Addr)) (k : Name) : Option (List (Name × Addr)) :=
  if l.any (fun p => p.1 = k) then some (l.filter (fun p => p.1 ≠ k)) else none

/-- Lexicographic comparison of names (Python string `<=`), used by `dir`. -/
def nameLe : Name → Name → Bool
  | [], _ => true
  | _ :: _, [] => false
  | a :: as, b :: bs => if a = b then nameLe as bs else decide (a < b)

/-- `dir(module)`: the module's attribute names, sorted. -/
def dirList (m : PyModule) : List Name := (m.attrs.map Prod.fst).mergeSort nameLe

/-- `name.startswith("_")`. -/
def startsUnderscore : Name → Bool
  | '_' :: _ => true
  | _ => false

/-- The mutable globals the worker touches: the object heap and
`sys.modules` (values are heap addresses). -/
structure WWorld where
  heap : Addr → PyModule
  sysModules : Name → Option Addr

/-- `sys.modules[n] = a`. -/
def WWorld.setMod (w : WWorld) (n : Name) (a : Addr) : WWorld :=
  { w with sysModules := fun k => if k = n then some a else w.sysModules k }

/-- `sys.modules.pop(n, None)`, keeping only the removal effect. -/
def WWorld.popMod (w : WWorld) (n : Name) : WWorld :=
  { w with sysModules := fun k => if k = n then none else w.sysModules k }

/-- In-place mutation of the module object at address `a`. -/
def WWorld.updHeap (w : WWorld) (a : Addr) (f : PyModule → PyModule) : WWorld :=
  { w with heap := fun x => if x = a then f (w.heap x) else w.heap x }

/-- The configured fail exception: a class (instantiated with the failing
name as message) or a ready-made instance (raised as-is). -/
inductive ExcSpec where
  | cls (tag : Nat)
  | inst (tag : Nat) (msg : Name)
deriving DecidableEq

/-- `utils.raise_exception`: instantiate a class with `message`, or raise
an instance unchanged. -/
def raise_exception : ExcSpec → Name → PyExc
  | .cls t, n => .injected t n
  | .inst t m, _ => .injected t m

/-- A name specification accepted by `utils.normalize_name`: a compiled
pattern, a string, a module, or an arbitrary invalid object. -/
inductive NameSpec where
  | pattern (m : Matcher)
  | str (s : Name)
  | module (a : Addr)
  | other

/-- A substitution target: a string, a module, or an arbitrary invalid
object (targets are not validated at construction). -/
inductive SubTarget where
  | str (s : Name)
  | module (a : Addr)
  | other

/-- `utils.normalize_name`: a compiled pattern passes through, a module is
replaced by its `__name__`, a string is compiled, anything else raises
`TypeError`. -/
def normalize_name (heap : Addr → PyModule) : NameSpec → Except PyExc Matcher
  | .pattern m => Except.ok m
  | .module a => Except.ok (normalizeString (heap a).mname)
  | .str s => Except.ok (normalizeString s)
  | .other => Except.error PyExc.typeError

/-- A constructed `TestImportsWorker`: normalized fail matchers, the
substitution mapping in declared iteration order (keys normalized, values
untouched), normalized hide matchers, the fail exception and the reload
flag. -/
structure Worker where
  fail_modules : List Matcher
  sub_modules : List (Matcher × SubTarget)
  hide_modules : List Matcher
  fail_exception : ExcSpec
  sub_module_reload : Bool

/-- The raw constructor arguments of `TestImportsWorker` (`None` sequences
and mappings are already collapsed to empty ones, which Python treats
identically in the `not (fail_modules or sub_modules)` truthiness check). -/
structure WorkerCfg where
  fail_modules : List NameSpec
  sub_modules : List (NameSpec × SubTarget)
  hide_modules : List NameSpec
  fail_exception : ExcSpec
  sub_module_reload : Bool

/-- One entry of `_normalize_mapping`: normalize the key, keep the value. -/
def normalizeSubRule (heap : Addr → PyModule) (kv : NameSpec × SubTarget) :
    Except PyExc (Matcher × SubTarget) := do
  let mk ← normalize_name heap kv.1
  pure (mk, kv.2)

/-- `TestImportsWorker.__init__`: raise `ValueError` when neither fail nor
substitute rules are supplied; otherwise normalize the fail sequence, the
substitution-mapping keys and the hide sequence, in source order.
Substitution values are not validated here. -/
def workerInit (heap : Addr → PyModule) (cfg : WorkerCfg) : Except PyExc Worker :=
  if cfg.fail_modules.isEmpty && cfg.sub_modules.isEmpty then
    Except.error PyExc.valueError
  else do
    let fm ← cfg.fail_modules.mapM (normalize_name heap)
    let sm ← cfg.sub_modules.mapM (normalizeSubRule heap)
    let hm ← cfg.hide_modules.mapM (normalize_name heap)
    pure
      { fail_modules := fm
        sub_modules := sm
        hide_modules := hm
        fail_exception := cfg.fail_exception
        sub_module_reload := cfg.sub_module_reload }

/-- `TestImportsWorker.is_fail_match`. -/
def is_fail_match (wk : Worker) (name : Name) : Bool :=
  wk.fail_modules.any (fun regex => regex name)

/-- `TestImportsWorker.get_sub_match`: the first substitution rule (in the
mapping's declared iteration order) whose matcher matches `name` decides
the result; its target is resolved to a name (a module target reads its
current `__name__` from the heap), raising `TypeError` for an invalid
target; with no matching rule the name is returned unchanged. -/
def get_sub_match (wk : Worker) (heap : Addr → PyModule) (name : Name) :
    Except PyExc Name :=
  match wk.sub_modules.find? (fun kv => kv.1 name) with
  | none => Except.ok name
  | some kv =>
    match kv.2 with
    | .str s => Except.ok s
    | .module a => Except.ok (heap a).mname
    | .other => Except.error PyExc.typeError

/-- `module_name ++ "." ++ nm`. -/
def qualify (moduleName nm : Name) : Name := moduleName ++ '.' :: nm

/-- `TestImportsWorker.expand_fromlist`: a `"*"` entry expands to
`module.<o>` for every `o` in `module.__all__` when that attribute exists,
else for every non-underscore name in `dir(module)`; any other entry `nm`
expands to `module.<nm>`. -/
def expand_fromlist (m : PyModule) (fromlist : List Name) : List Name :=
  fromlist.flatMap (fun nm =>
    if nm = ['*'] then
      match m.allAttr with
      | some l => l.map (fun o => qualify m.mname o)
      | none =>
        ((dirList m).filter (fun o => !startsUnderscore o)).map
          (fun o => qualify m.mname o)
    else [qualify m.mname nm])

/-- `TestImportsWorker.get_fromlist_matches`: the expanded candidates that
match the fail set, in expansion order. -/
def get_fromlist_matches (wk : Worker) (m : PyModule) (fromlist : List Name) :
    List Name :=
  (expand_fromlist m fromlist).filter (fun n => is_fail_match wk n)

/-- `TestImportsWorker.wrapper_handle_fromlist`: fail with the configured
exception on the first fail-matching expanded candidate, else delegate to
the captured prior `_handle_fromlist` with all arguments, including the
`recursive` flag, unchanged. -/
def wrapper_handle_fromlist (wk : Worker)
    (priorHF : PyModule → List Name → Bool → Except PyExc Addr)
    (m : PyModule) (fromlist : List Name) (recursive : Bool) :
    Except PyExc Addr :=
  match (get_fromlist_matches wk m fromlist).head? with
  | some nm => Except.error (raise_exception wk.fail_exception nm)
  | none => priorHF m fromlist recursive

/-- The captured prior `_find_and_load`: takes a name and the globals,
returns the new globals and the loaded module's address, or raises. -/
abbrev PriorFAL := Name → WWorld → Except PyExc (WWorld × Addr)

/-- `TestImportsWorker.get_attrib`: for a dotted name, resolve the parent
through the prior hook and read the leaf attribute (`_UNDEF` when absent,
modelled by `none`); for a top-level name, `_UNDEF` directly. -/
def get_attrib (prior : PriorFAL) (name : Name) (w : WWorld) :
    Except PyExc (WWorld × Option Addr) :=
  let pr := rpartitionDot name
  if pr.1 ≠ [] then
    match prior pr.1 w with
    | .error e => Except.error e
    | .ok p => Except.ok (p.1, getattrD (p.1.heap p.2) pr.2)
  else Except.ok (w, none)

/-- Lines 141–147 of `fake_loaded_module_data`: when the loaded module has
a spec with a truthy parent, look the parent up in `sys.modules`
(`KeyError` when absent) and reset its attribute for the loaded module's
leaf name to `attrib_value`, deleting it when the value is the `_UNDEF`
sentinel (`AttributeError` when there is nothing to delete). -/
def fake_parent_reset (loaded : Addr) (attrib_value : Option Addr)
    (w0 : WWorld) : Except PyExc WWorld :=
  match (w0.heap loaded).spec with
  | some sp =>
    if sp.parent ≠ [] then
      match w0.sysModules sp.parent with
      | none => Except.error PyExc.keyError
      | some pa =>
        let module_name := (rpartitionDot (w0.heap loaded).mname).2
        match attrib_value with
        | none =>
          match attrDel (w0.heap pa).attrs module_name with
          | none => Except.error PyExc.attributeError
          | some l => Except.ok (w0.updHeap pa (fun m => { m with attrs := l }))
        | some v =>
          Except.ok (w0.updHeap pa
            (fun m => { m with attrs := attrSet m.attrs module_name v }))
    else Except.ok w0
  | none => Except.ok w0

/-- `TestImportsWorker.fake_loaded_module_data`: install `loaded` in the
registry under `name`; stop if its `__name__` already equals `name`; else
reset the true parent's attribute (`fake_parent_reset`), resolve the alias
parent through the wrapper (`recurse`) and set its leaf attribute to
`loaded`, and finally set `loaded.__name__` to the leaf of `name` and
`loaded.__spec__.name` (when a spec exists) to `name`. -/
def fake_loaded_module_data (recurse : Name → WWorld → Except PyExc (WWorld × Addr))
    (loaded : Addr) (name : Name) (attrib_value : Option Addr) (w : WWorld) :
    Except PyExc WWorld :=
  let w0 := w.setMod name loaded
  if (w0.heap loaded).mname = name then Except.ok w0
  else
    match fake_parent_reset loaded attrib_value w0 with
    | .error e => Except.error e
    | .ok w1 =>
      let fp := rpartitionDot name
      let afterAlias : Except PyExc WWorld :=
        if fp.1 ≠ [] then
          match recurse fp.1 w1 with
          | .error e => Except.error e
          | .ok p =>
            Except.ok (p.1.updHeap p.2
              (fun m => { m with attrs := attrSet m.attrs fp.2 loaded }))
        else Except.ok w1
      match afterAlias with
      | .error e => Except.error e
      | .ok w2 =>
        let w3 := w2.updHeap loaded (fun m => { m with mname := fp.2 })
        Except.ok (w3.updHeap loaded (fun m =>
          { m with spec := m.spec.map (fun sp => { sp with sname := name }) }))

/-- Lines 242–255 of `wrapper_find_and_load`: snapshot the target's
registry entry (`modules_value`), pop the target when reloading or when it
is hidden (remembering `existing_module`), load through the prior hook,
reinstate `existing_module`, and restore the registry snapshot (remove the
entry when the snapshot was the `_UNDEF` sentinel, else write the
snapshotted handle back).  Returns the resulting globals and the loaded
module's address. -/
def load_and_restore (wk : Worker) (prior : PriorFAL) (isHidden : Name → Bool)
    (name_to_load : Name) (w1 : WWorld) : Except PyExc (WWorld × Addr) :=
  let modules_value : Option Addr := w1.sysModules name_to_load
  let popStep : WWorld × Option Addr :=
    if wk.sub_module_reload || isHidden name_to_load then
      (w1.popMod name_to_load, w1.sysModules name_to_load)
    else (w1, none)
  match prior name_to_load popStep.1 with
  | .error e => Except.error e
  | .ok p3 =>
    let w4 :=
      match popStep.2 with
      | some e => p3.1.setMod name_to_load e
      | none => p3.1
    let w5 :=
      match modules_value with
      | none => w4.popMod name_to_load
      | some mv => w4.setMod name_to_load mv
    Except.ok (w5, p3.2)

/-- `TestImportsWorker.wrapper_find_and_load`: raise the configured
exception on a fail match; resolve the substitution target; capture the
parent attribute for the target (only when substituting); run the
load-and-restore block on the target; and fake the loaded module's data
under the requested name.  Python's recursion is modelled with explicit
`fuel` (each recursive call resolves the strictly shorter alias parent
name, so any fuel exceeding the number of dots suffices); exhausted fuel
reports the distinguished `fuelOut` error. -/
def wrapper_find_and_load (wk : Worker) (prior : PriorFAL)
    (isHidden : Name → Bool) :
    Nat → Name → WWorld → Except PyExc (WWorld × Addr)
  | 0, _, _ => Except.error PyExc.fuelOut
  | fuel + 1, name, w =>
    if is_fail_match wk name then
      Except.error (raise_exception wk.fail_exception name)
    else
      match get_sub_match wk w.heap name with
      | .error e => Except.error e
      | .ok name_to_load =>
        match
          (if name ≠ name_to_load then get_attrib prior name_to_load w
            else Except.ok (w, none)) with
        | .error e => Except.error e
        | .ok p1 =>
          match load_and_restore wk prior isHidden name_to_load p1.1 with
          | .error e => Except.error e
          | .ok p5 =>
            match fake_loaded_module_data
                (fun n w2 => wrapper_find_and_load wk prior isHidden fuel n w2)
                p5.2 name p1.2 p5.1 with
            | .error e => Except.error e
            | .ok w6 => Except.ok (w6, p5.2)

/-- The matcher `normalize_name` yields on a valid name specification
(junk on the invalid one, which raises instead). -/
def normOk (heap : Addr → PyModule) : NameSpec → Matcher
  | .pattern m => m
  | .str s => normalizeString s
  | .module a => normalizeString (heap a).mname
  | .other => fun _ => false

/-! ### Concrete worker inputs used by the claim witnesses -/

/-- Constructor arguments whose fail sequence contains an invalid entry. -/
def cfgBadFail : WorkerCfg :=
  { fail_modules := [NameSpec.other]
    sub_modules := []
    hide_modules := []
    fail_exception := .cls 0
    sub_module_reload := false }

/-- Constructor arguments whose hide sequence contains an invalid entry. -/
def cfgBadHide : WorkerCfg :=
  { fail_modules := [NameSpec.str ['m']]
    sub_modules := []
    hide_modules := [NameSpec.other]
    fail_exception := .cls 0
    sub_module_reload := false }

/-- A heap of blank modules. -/
def emptyHeap : Addr → PyModule :=
  fun _ => { mname := [], spec := none, allAttr := none, attrs := [] }

/-- Constructor arguments with a single substitution rule `"m" ↦ <junk>`
whose target is an invalid object. -/
def c5cfg : WorkerCfg :=
  { fail_modules := []
    sub_modules := [(NameSpec.str ['m'], SubTarget.other)]
    hide_modules := []
    fail_exception := .cls 0
    sub_module_reload := false }

/-- The worker that `workerInit` builds from `c5cfg`: construction
succeeds with the invalid target stored untouched. -/
def c5wk : Worker :=
  { fail_modules := []
    sub_modules := [(normalizeString ['m'], SubTarget.other)]
    hide_modules := []
    fail_exception := .cls 0
    sub_module_reload := false }

/-- A worker with two overlapping substitution rules: the wildcard rule
`"a*"` is declared before the more specific literal rule `"ab"`. -/
def c7wk : Worker :=
  { fail_modules := []
    sub_modules :=
      [(normalizeString ['a', '*'], SubTarget.str ['f', 'i', 'r', 's', 't']),
        (normalizeString ['a', 'b'], SubTarget.str ['s', 'e', 'c', 'o', 'n', 'd'])]
    hide_modules := []
    fail_exception := .cls 0
    sub_module_reload := false }

/-- A module `pkg` with one public attribute `t`. -/
def c6pkg : PyModule :=
  { mname := ['p'], spec := none, allAttr := none, attrs := [(['t'], 3)] }

/-- A worker whose fail set contains exactly `pkg.t` (spelled `"p.t"`). -/
def c6wk : Worker :=
  { fail_modules := [normalizeString ['p', '.', 't']]
    sub_modules := []
    hide_modules := []
    fail_exception := .cls 0
    sub_module_reload := false }

/-- A prior `_handle_fromlist` hook returning a fixed module address. -/
def c6prior : PyModule → List Name → Bool → Except PyExc Addr :=
  fun _ _ _ => Except.ok 9

/-- Heap for the alias round-trip witness: address 1 holds the target
module `z`; everything else is blank. -/
def c1heap : Addr → PyModule :=
  fun a =>
    if a = 1 then { mname := ['z'], spec := none, allAttr := none, attrs := [] }
    else { mname := [], spec := none, allAttr := none, attrs := [] }

/-- Globals for the alias round-trip witness: empty registry. -/
def c1w0 : WWorld := { heap := c1heap, sysModules := fun _ => none }

/-- Worker substituting the requested `"x"` by the target `"z"`. -/
def c1wk : Worker :=
  { fail_modules := []
    sub_modules := [(normalizeString ['x'], SubTarget.str ['z'])]
    hide_modules := []
    fail_exception := .cls 0
    sub_module_reload := false }

/-- A prior loader that can load exactly `"z"` (installing address 1). -/
def c1prior : PriorFAL :=
  fun n w =>
    if n = ['z'] then Except.ok (w.setMod ['z'] 1, 1)
    else Except.error PyExc.keyError

/-- The result of the witness run of the wrapper on `"x"`. -/
def c1out : WWorld × Addr :=
  match wrapper_find_and_load c1wk c1prior (fun _ => false) 1 ['x'] c1w0 with
  | .ok p => p
  | .error _ => (c1w0, 0)

/-- Heap for the dotted-alias counterexample: address 1 holds the target
module `z`, address 2 the alias parent `p`. -/
def cxheap : Addr → PyModule :=
  fun a =>
    if a = 1 then { mname := ['z'], spec := none, allAttr := none, attrs := [] }
    else if a = 2 then { mname := ['p'], spec := none, allAttr := none, attrs := [] }
    else { mname := [], spec := none, allAttr := none, attrs := [] }

/-- Globals for the dotted-alias counterexample: empty registry. -/
def cxw0 : WWorld := { heap := cxheap, sysModules := fun _ => none }

/-- Worker substituting the dotted requested name `"p.q"` by `"z"`. -/
def cxwk : Worker :=
  { fail_modules := []
    sub_modules := [(normalizeString ['p', '.', 'q'], SubTarget.str ['z'])]
    hide_modules := []
    fail_exception := .cls 0
    sub_module_reload := false }

/-- A prior loader that can load `"z"` (address 1) and `"p"` (address 2). -/
def cxprior : PriorFAL :=
  fun n w =>
    if n = ['z'] then Except.ok (w.setMod ['z'] 1, 1)
    else if n = ['p'] then Except.ok (w.setMod ['p'] 2, 2)
    else Except.error PyExc.keyError

/-! ### Matcher theorems (claim C4) -/

theorem endAnchor_eq_true {t : Name} : endAnchor t = true ↔ t = [] ∨ t = ['\n'] := by
  simp [endAnchor]

theorem pySplit_eq_single {sep : Char} {s : Name} (hs : sep ∉ s) :
    pySplit sep s = [s] := by
  induction s with
  | nil => rfl
  | cons c rest ih =>
    have hc : c ≠ sep := fun h => hs (h ▸ List.mem_cons_self c rest)
    have hrest : sep ∉ rest := fun h => hs (List.mem_cons_of_mem c h)
    simp [pySplit, ih hrest, hc]

theorem reMatch_single {f t : Name} :
    reMatch [f] t = true ↔ t = f ∨ t = f ++ ['\n'] := by
  show (f.isPrefixOf t && matchStar [] (t.drop f.length)) = true ↔ _
  rw [Bool.and_eq_true, List.isPrefixOf_iff_prefix]
  constructor
  · rintro ⟨⟨r, rfl⟩, hend⟩
    rw [List.drop_left] at hend
    rcases endAnchor_eq_true.mp hend with h | h <;> subst h <;> simp
  · rintro (rfl | rfl)
    · refine ⟨List.prefix_refl _, ?_⟩
      rw [List.drop_length]
      decide
    · refine ⟨List.prefix_append _ _, ?_⟩
      rw [List.drop_left]
      decide

/-- C4, amended: for a literal spec `s` without the wildcard token, the
compiled matcher accepts exactly `s` and `s ++ "\n"` (Python's `$` anchor
also matches just before a single trailing newline); every other input,
in particular `s` followed by any non-newline suffix such as `s ++ "x"`,
is rejected. -/
theorem compile_literal_matches_iff (s : Name) (hs : '*' ∉ s) (t : Name) :
    normalizeString s t = true ↔ t = s ∨ t = s ++ ['\n'] := by
  unfold normalizeString
  rw [pySplit_eq_single hs]
  exact reMatch_single

/-- Witness for `compile_literal_matches_iff` at the literal spec `"ab"`
and the input `"abx"`, which the compiled matcher rejects. -/
theorem compile_literal_matches_iff_witness :
    '*' ∉ (['a', 'b'] : Name) ∧
      (normalizeString ['a', 'b'] ['a', 'b', 'x'] = true ↔
        (['a', 'b', 'x'] : Name) = ['a', 'b'] ∨
          (['a', 'b', 'x'] : Name) = ['a', 'b'] ++ ['\n']) :=
  ⟨by decide, compile_literal_matches_iff ['a', 'b'] (by decide) ['a', 'b', 'x']⟩

/-- C4 fails as stated: the spec `"a"` contains no wildcard, yet its
compiled matcher accepts the distinct input `"a\n"` (Python's `$` matches
just before a trailing newline), so `compile(s)` does not match only `s`. -/
theorem compile_literal_counterexample :
    '*' ∉ (['a'] : Name) ∧
      normalizeString ['a'] ['a', '\n'] = true ∧
      (['a', '\n'] : Name) ≠ ['a'] := by
  refine ⟨by decide, by decide, by decide⟩

/-! ### Revert theorems (claims about `BootstrapState.revert`) -/

theorem revertBody_noFault_not_raised (st : BState) :
    ∀ (l : List RStep) (w : SWorld), (revertBody noFault st l w).2 = false := by
  intro l
  induction l with
  | nil => intro w; rfl
  | cons s rest ih => intro w; simpa [revertBody, noFault] using ih (runStep st s w)

theorem revertF_inactive (g : RStep → Bool) (st : BState) (w : SWorld)
    (h : st.active = false) :
    revertF g st w = (Except.error PyExc.revertError, st, w) := by
  simp [revertF, h]

theorem revertF_state_inactive (g : RStep → Bool) (st : BState) (w : SWorld)
    (h : st.active = true) :
    (revertF g st w).2.1 = { st with active := false } := by
  simp [revertF, h]

/-- C2 fails as stated: with the state and fault below, an exception in
step 1 (`_unload_matching_modules`) of the first revert propagates with the
stash not reinserted (the hidden entry for `"a"` is still missing from the
registry) and with both pipeline hooks still holding the wrapper ids `5`
and `6` rather than the captured originals `0` — neither later step was
attempted. -/
theorem revert_step1_exception_counterexample :
    c2st.active = true ∧
      (revertF c2failing c2st c2w).1 = Except.error PyExc.stepExc ∧
      (revertF c2failing c2st c2w).2.2.fal = 5 ∧ c2st.origFal = 0 ∧
      (revertF c2failing c2st c2w).2.2.hf = 6 ∧ c2st.origHf = 0 ∧
      (revertF c2failing c2st c2w).2.2.sysModules ['a'] = none ∧
      c2st.hidden ['a'] = some 1 := by
  refine ⟨rfl, rfl, rfl, rfl, rfl, rfl, rfl, rfl⟩

/-- C2, amended: when an exception interrupts the first statement of
`revert`'s cleanup body, none of the later statements (stash reinsertion,
restoration of either hook) is attempted; the `finally` clause only marks
the state inactive before the exception propagates, leaving the registry
and both hook slots exactly as they were. -/
theorem revert_step1_exception_amended (failing : RStep → Bool) (st : BState)
    (w : SWorld) (h : st.active = true) (hf : failing RStep.unload = true) :
    revertF failing st w =
      (Except.error PyExc.stepExc, { st with active := false }, w) := by
  simp [revertF, revertBody, h, hf]

/-- Witness for `revert_step1_exception_amended` at the concrete state,
registry and fault oracle of the counterexample. -/
theorem revert_step1_exception_amended_witness :
    c2st.active = true ∧ c2failing RStep.unload = true ∧
      revertF c2failing c2st c2w =
        (Except.error PyExc.stepExc, { c2st with active := false }, c2w) :=
  ⟨rfl, rfl, revert_step1_exception_amended c2failing c2st c2w rfl rfl⟩

/-- C8: after a successful first `revert`, a second `revert` on the same
state raises `TestImportsRevertError` and returns with the state, the
module registry and both hook slots untouched (the error is raised before
any mutation, whatever the second call's fault oracle `g` and globals `w2`
are). -/
theorem revert_twice_raises (st : BState) (w w2 : SWorld) (g : RStep → Bool)
    (h : st.active = true) :
    (revertF noFault st w).1 = Except.ok () ∧
      revertF g (revertF noFault st w).2.1 w2 =
        (Except.error PyExc.revertError, (revertF noFault st w).2.1, w2) := by
  constructor
  · simp [revertF, h, revertBody_noFault_not_raised]
  · rw [revertF_state_inactive noFault st w h]
    exact revertF_inactive g _ w2 rfl

/-- Witness for `revert_twice_raises` at a concrete active state. -/
theorem revert_twice_raises_witness :
    c2st.active = true ∧
      ((revertF noFault c2st c2w).1 = Except.ok () ∧
        revertF noFault (revertF noFault c2st c2w).2.1 c2w =
          (Except.error PyExc.revertError, (revertF noFault c2st c2w).2.1, c2w)) :=
  ⟨rfl, revert_twice_raises c2st c2w c2w noFault rfl⟩

/-- C10: if the cleanup body of the first `revert` raises, the `finally`
clause still marks the state inactive, so every later `revert` call on the
resulting state (any fault oracle `g`, any globals `w2`) raises
`TestImportsRevertError` without executing any cleanup statement — the
interrupted cleanup is never retried. -/
theorem revert_exception_marks_inactive (failing : RStep → Bool) (st : BState)
    (w : SWorld) (h : st.active = true)
    (hraise : (revertF failing st w).1 = Except.error PyExc.stepExc) :
    (revertF failing st w).2.1.active = false ∧
      ∀ (g : RStep → Bool) (w2 : SWorld),
        revertF g (revertF failing st w).2.1 w2 =
          (Except.error PyExc.revertError, (revertF failing st w).2.1, w2) := by
  rw [revertF_state_inactive failing st w h]
  exact ⟨rfl, fun g w2 => revertF_inactive g _ w2 rfl⟩

/-- Witness for `revert_exception_marks_inactive`: a fault in the second
statement (stash reinsertion) of the cleanup body. -/
theorem revert_exception_marks_inactive_witness :
    c10st.active = true ∧
      (revertF c10failing c10st c2w).1 = Except.error PyExc.stepExc ∧
      ((revertF c10failing c10st c2w).2.1.active = false ∧
        revertF noFault (revertF c10failing c10st c2w).2.1 c2w =
          (Except.error PyExc.revertError,
            (revertF c10failing c10st c2w).2.1, c2w)) := by
  refine ⟨rfl, rfl, ?_⟩
  have h := revert_exception_marks_inactive c10failing c10st c2w rfl rfl
  exact ⟨h.1, h.2 noFault c2w⟩

/-! ### Stack theorems (claims C3 and C9) -/

theorem revertF_noFault_world (st : BState) (w : SWorld) (h : st.active = true) :
    (revertF noFault st w).2.2 =
      { sysModules := fun n =>
          match st.hidden n with
          | some a => some a
          | none => if anyMatch st.regexes n then none else w.sysModules n
        fal := st.origFal
        hf := st.origHf } := by
  simp [revertF, h, revertBody, noFault, runStep]

theorem unpatchOp_two (stk0 : List BState) (A B : BState) (sid : Nat) (w : SWorld)
    (hsid : A.sid = sid) (hfresh : ∀ st ∈ stk0, st.sid ≠ sid)
    (hAact : A.active = true) (hBact : B.active = true) :
    unpatchOp (stk0 ++ [A, B]) (some sid) w =
      (stk0, (revertF noFault A (revertF noFault B w).2.2).2.2, [B.sid, A.sid]) := by
  have hnone : List.findIdx? (fun st => decide (st.sid = sid)) stk0 = none :=
    List.findIdx?_eq_none_iff.mpr (fun st hst => by simp [hfresh st hst])
  have hfind : List.findIdx? (fun st => decide (st.sid = sid)) (stk0 ++ [A, B])
      = some stk0.length := by
    rw [List.findIdx?_append, hnone]
    simp [List.findIdx?_cons, hsid]
  simp only [unpatchOp, hfind, List.drop_left, List.take_left]
  simp [List.foldl, hAact, hBact]

/-- C9: `unpatch` with a state whose identity does not occur in the stack
is a silent no-op: the stack, the module registry and both pipeline hook
slots are all returned unchanged, no state is reverted, and no exception
is raised. -/
theorem unpatch_unknown_state (stk : List BState) (sid : Nat) (w : SWorld)
    (h : ∀ st ∈ stk, st.sid ≠ sid) :
    unpatchOp stk (some sid) w = (stk, w, []) := by
  have hnone : List.findIdx? (fun st => decide (st.sid = sid)) stk = none :=
    List.findIdx?_eq_none_iff.mpr (fun st hst => by simp [h st hst])
  simp only [unpatchOp, hnone]

/-- Witness for `unpatch_unknown_state`: a one-state stack `[S1]` and an
unwind target `S2` that was never pushed. -/
theorem unpatch_unknown_state_witness :
    (∀ st ∈ [c2st], st.sid ≠ 7) ∧
      unpatchOp [c2st] (some 7) c2w = ([c2st], c2w, []) := by
  have h : ∀ st ∈ [c2st], st.sid ≠ 7 := by
    intro st hst
    rw [List.mem_singleton.mp hst]
    decide
  exact ⟨h, unpatch_unknown_state [c2st] 7 c2w h⟩

/-- C3: activating session A, then session B, then deactivating A unwinds
B first and A second (ghost trace `[sidB, sidA]`), and afterwards the
stack, the whole module registry and both pipeline hook slots are exactly
their pre-A values. -/
theorem lifo_roundtrip (stk0 : List BState) (w0 : SWorld) (sidA sidB : Nat)
    (fA hA fB hB : Hook) (MA MB : List (Name → Bool))
    (hfresh : ∀ st ∈ stk0, st.sid ≠ sidA) :
    (lifoScenario stk0 w0 sidA sidB fA hA fB hB MA MB).2.2 = [sidB, sidA] ∧
      (lifoScenario stk0 w0 sidA sidB fA hA fB hB MA MB).1 = stk0 ∧
      (∀ n, (lifoScenario stk0 w0 sidA sidB fA hA fB hB MA MB).2.1.sysModules n
        = w0.sysModules n) ∧
      (lifoScenario stk0 w0 sidA sidB fA hA fB hB MA MB).2.1.fal = w0.fal ∧
      (lifoScenario stk0 w0 sidA sidB fA hA fB hB MA MB).2.1.hf = w0.hf := by
  have hscen : lifoScenario stk0 w0 sidA sidB fA hA fB hB MA MB
      = unpatchOp
          (stk0 ++ [(bstateInit sidA MA w0).1,
            (bstateInit sidB MB (patchOp sidA fA hA MA stk0 w0).2).1])
          (some sidA)
          ((patchOp sidB fB hB MB (patchOp sidA fA hA MA stk0 w0).1
            (patchOp sidA fA hA MA stk0 w0).2).2) := by
    show unpatchOp ((stk0 ++ [(bstateInit sidA MA w0).1]) ++
        [(bstateInit sidB MB (patchOp sidA fA hA MA stk0 w0).2).1]) (some sidA) _ = _
    rw [List.append_assoc]
    rfl
  rw [hscen,
    unpatchOp_two stk0 (bstateInit sidA MA w0).1
      (bstateInit sidB MB (patchOp sidA fA hA MA stk0 w0).2).1 sidA
      ((patchOp sidB fB hB MB (patchOp sidA fA hA MA stk0 w0).1
        (patchOp sidA fA hA MA stk0 w0).2).2)
      rfl hfresh rfl rfl]
  refine ⟨rfl, rfl, ?_, rfl, rfl⟩
  intro n
  rw [revertF_noFault_world _ _ rfl, revertF_noFault_world _ _ rfl]
  cases hMA : anyMatch MA n <;> cases hMB : anyMatch MB n <;>
    cases h0 : w0.sysModules n <;>
      simp [bstateInit, patchOp, hMA, hMB, h0]

/-- Witness for `lifo_roundtrip` on an empty initial stack and registry,
with distinct wrapper ids and one concrete hide matcher per session,
evaluated at the name `"a"`. -/
theorem lifo_roundtrip_witness :
    (∀ st ∈ ([] : List BState), st.sid ≠ 1) ∧
      ((lifoScenario [] c2w 1 2 11 12 21 22 [fun n => n = ['a']] []).2.2
          = [2, 1] ∧
        (lifoScenario [] c2w 1 2 11 12 21 22 [fun n => n = ['a']] []).1 = [] ∧
        (lifoScenario [] c2w 1 2 11 12 21 22 [fun n => n = ['a']] []).2.1.sysModules ['a']
          = c2w.sysModules ['a'] ∧
        (lifoScenario [] c2w 1 2 11 12 21 22 [fun n => n = ['a']] []).2.1.fal = c2w.fal ∧
        (lifoScenario [] c2w 1 2 11 12 21 22 [fun n => n = ['a']] []).2.1.hf = c2w.hf) := by
  have hf : ∀ st ∈ ([] : List BState), st.sid ≠ 1 := by
    intro st hst
    cases hst
  have h := lifo_roundtrip [] c2w 1 2 11 12 21 22 [fun n => n = ['a']] [] hf
  exact ⟨hf, h.1, h.2.1, h.2.2.1 ['a'], h.2.2.2.1, h.2.2.2.2⟩

/-! ### Substitution-lookup theorems (claims C7 and C5) -/

theorem get_sub_match_first (wk : Worker) (heap : Addr → PyModule) (name : Name)
    (pre post : List (Matcher × SubTarget)) (m : Matcher) (tgt : SubTarget)
    (hrules : wk.sub_modules = pre ++ (m, tgt) :: post)
    (hpre : ∀ kv ∈ pre, kv.1 name = false)
    (hm : m name = true) :
    get_sub_match wk heap name =
      match tgt with
      | .str s => Except.ok s
      | .module a => Except.ok (heap a).mname
      | .other => Except.error PyExc.typeError := by
  have hnone : pre.find? (fun kv => kv.1 name) = none :=
    List.find?_eq_none.mpr (fun kv hkv => by simp [hpre kv hkv])
  have hcons : List.find? (fun kv => kv.1 name) ((m, tgt) :: post) = some (m, tgt) :=
    List.find?_cons_of_pos post hm
  unfold get_sub_match
  conv_lhs => rw [hrules, List.find?_append, hnone, Option.none_or, hcons]
  cases tgt <;> rfl

/-- C7: when several substitution rules match the requested name, the rule
used is the first matching one in the mapping's declared iteration order —
whatever rules (more specific, longer, or otherwise) come later. -/
theorem sub_first_match_wins (wk : Worker) (heap : Addr → PyModule) (name : Name)
    (pre post : List (Matcher × SubTarget)) (m : Matcher) (tgt : SubTarget)
    (hrules : wk.sub_modules = pre ++ (m, tgt) :: post)
    (hpre : ∀ kv ∈ pre, kv.1 name = false)
    (hm : m name = true) :
    get_sub_match wk heap name =
      match tgt with
      | .str s => Except.ok s
      | .module a => Except.ok (heap a).mname
      | .other => Except.error PyExc.typeError :=
  get_sub_match_first wk heap name pre post m tgt hrules hpre hm

/-- Witness for `sub_first_match_wins`: both rules of `c7wk` match `"ab"`
(the second is the more specific literal), and the declared-first wildcard
rule's target `"first"` wins. -/
theorem sub_first_match_wins_witness :
    normalizeString ['a', '*'] ['a', 'b'] = true ∧
      normalizeString ['a', 'b'] ['a', 'b'] = true ∧
      get_sub_match c7wk emptyHeap ['a', 'b'] =
        Except.ok ['f', 'i', 'r', 's', 't'] := by
  refine ⟨by decide, by decide, ?_⟩
  exact sub_first_match_wins c7wk emptyHeap ['a', 'b'] []
    [(normalizeString ['a', 'b'], SubTarget.str ['s', 'e', 'c', 'o', 'n', 'd'])]
    (normalizeString ['a', '*']) (SubTarget.str ['f', 'i', 'r', 's', 't'])
    rfl (by intro kv hkv; cases hkv) (by decide)

theorem normalize_name_ok (heap : Addr → PyModule) {x : NameSpec}
    (hx : x ≠ NameSpec.other) :
    normalize_name heap x = Except.ok (normOk heap x) := by
  cases x with
  | pattern m => rfl
  | str s => rfl
  | module a => rfl
  | other => exact absurd rfl hx

theorem mapM_normalize_ok (heap : Addr → PyModule) :
    ∀ (l : List NameSpec), (∀ x ∈ l, x ≠ NameSpec.other) →
      l.mapM (normalize_name heap) = Except.ok (l.map (normOk heap)) := by
  intro l
  induction l with
  | nil => intro hl; rfl
  | cons x xs ih =>
    intro hl
    rw [List.mapM_cons, normalize_name_ok heap (hl x (List.mem_cons_self x xs)),
      ih (fun y hy => hl y (List.mem_cons_of_mem x hy))]
    rfl

theorem mapM_normalize_err (heap : Addr → PyModule) :
    ∀ (pre post : List NameSpec), (∀ x ∈ pre, x ≠ NameSpec.other) →
      (pre ++ NameSpec.other :: post).mapM (normalize_name heap) =
        Except.error PyExc.typeError := by
  intro pre
  induction pre with
  | nil => intro post hl; rw [List.nil_append, List.mapM_cons]; rfl
  | cons x xs ih =>
    intro post hl
    rw [List.cons_append, List.mapM_cons,
      normalize_name_ok heap (hl x (List.mem_cons_self x xs)),
      ih post (fun y hy => hl y (List.mem_cons_of_mem x hy))]
    rfl

theorem normalizeSubRule_ok (heap : Addr → PyModule) {kv : NameSpec × SubTarget}
    (h : kv.1 ≠ NameSpec.other) :
    normalizeSubRule heap kv = Except.ok (normOk heap kv.1, kv.2) := by
  show (normalize_name heap kv.1).bind _ = _
  rw [normalize_name_ok heap h]
  rfl

theorem mapM_sub_ok (heap : Addr → PyModule) :
    ∀ (l : List (NameSpec × SubTarget)), (∀ kv ∈ l, kv.1 ≠ NameSpec.other) →
      l.mapM (normalizeSubRule heap) =
        Except.ok (l.map (fun kv => (normOk heap kv.1, kv.2))) := by
  intro l
  induction l with
  | nil => intro hl; rfl
  | cons x xs ih =>
    intro hl
    rw [List.mapM_cons, normalizeSubRule_ok heap (hl x (List.mem_cons_self x xs)),
      ih (fun y hy => hl y (List.mem_cons_of_mem x hy))]
    rfl

/-- C5 fails as stated: a session whose substitution mapping carries an
invalid target type is constructed without error (`c5cfg` yields the
worker `c5wk`), and the `TypeError` is raised only later, during
resolution, when the rule first matches a requested name. -/
theorem config_error_timing_counterexample :
    workerInit emptyHeap c5cfg = Except.ok c5wk ∧
      get_sub_match c5wk emptyHeap ['m'] = Except.error PyExc.typeError :=
  ⟨rfl, rfl⟩

/-- C5, amended: an invalid fail entry or hide entry (not a matcher,
string, or module) raises the configuration error at construction time;
but substitution targets are not validated at construction — a session
with an invalid substitution target is built successfully, and the
`TypeError` surfaces during resolution, when the rule first matches the
requested name. -/
theorem config_error_timing :
    (∀ (heap : Addr → PyModule) (cfg : WorkerCfg) (pre post : List NameSpec),
      cfg.fail_modules = pre ++ NameSpec.other :: post →
      (∀ x ∈ pre, x ≠ NameSpec.other) →
      workerInit heap cfg = Except.error PyExc.typeError) ∧
    (∀ (heap : Addr → PyModule) (cfg : WorkerCfg) (pre post : List NameSpec),
      cfg.hide_modules = pre ++ NameSpec.other :: post →
      (cfg.fail_modules.isEmpty && cfg.sub_modules.isEmpty) = false →
      (∀ x ∈ cfg.fail_modules, x ≠ NameSpec.other) →
      (∀ kv ∈ cfg.sub_modules, kv.1 ≠ NameSpec.other) →
      (∀ x ∈ pre, x ≠ NameSpec.other) →
      workerInit heap cfg = Except.error PyExc.typeError) ∧
    (∀ (heap : Addr → PyModule) (cfg : WorkerCfg),
      (cfg.fail_modules.isEmpty && cfg.sub_modules.isEmpty) = false →
      (∀ x ∈ cfg.fail_modules, x ≠ NameSpec.other) →
      (∀ kv ∈ cfg.sub_modules, kv.1 ≠ NameSpec.other) →
      (∀ x ∈ cfg.hide_modules, x ≠ NameSpec.other) →
      (workerInit heap cfg).toOption.isSome = true) ∧
    (∀ (heap : Addr → PyModule) (wk : Worker) (name : Name)
      (pre post : List (Matcher × SubTarget)) (m : Matcher),
      wk.sub_modules = pre ++ (m, SubTarget.other) :: post →
      (∀ kv ∈ pre, kv.1 name = false) →
      m name = true →
      get_sub_match wk heap name = Except.error PyExc.typeError) := by
  refine ⟨?_, ?_, ?_, ?_⟩
  · intro heap cfg pre post hfm hpre
    have hguard : (cfg.fail_modules.isEmpty && cfg.sub_modules.isEmpty) = false := by
      rw [hfm]
      cases pre <;> simp
    unfold workerInit
    rw [hguard, hfm, mapM_normalize_err heap pre post hpre]
    rfl
  · intro heap cfg pre post hhm hguard hfail hsub hpre
    unfold workerInit
    rw [hguard, mapM_normalize_ok heap cfg.fail_modules hfail,
      mapM_sub_ok heap cfg.sub_modules hsub]
    show (cfg.hide_modules.mapM (normalize_name heap)).bind _ = _
    rw [hhm, mapM_normalize_err heap pre post hpre]
    rfl
  · intro heap cfg hguard hfail hsub hhide
    unfold workerInit
    rw [hguard, mapM_normalize_ok heap cfg.fail_modules hfail,
      mapM_sub_ok heap cfg.sub_modules hsub,
      mapM_normalize_ok heap cfg.hide_modules hhide]
    rfl
  · intro heap wk name pre post m hrules hpre hm
    exact get_sub_match_first wk heap name pre post m SubTarget.other hrules hpre hm

/-- Witness for `config_error_timing`: an invalid fail entry and an
invalid hide entry each abort construction with `TypeError`; the
configuration `c5cfg` with an invalid substitution target builds fine and
only `get_sub_match` on the matching name raises. -/
theorem config_error_timing_witness :
    workerInit emptyHeap cfgBadFail = Except.error PyExc.typeError ∧
      workerInit emptyHeap cfgBadHide = Except.error PyExc.typeError ∧
      (workerInit emptyHeap c5cfg).toOption.isSome = true ∧
      get_sub_match c5wk emptyHeap ['m'] = Except.error PyExc.typeError := by
  have hmt : ∀ (x : NameSpec), x ∈ ([] : List NameSpec) → x ≠ NameSpec.other := by
    intro x hx
    cases hx
  refine ⟨?_, ?_, ?_, ?_⟩
  · exact config_error_timing.1 emptyHeap cfgBadFail [] [] rfl hmt
  · refine config_error_timing.2.1 emptyHeap cfgBadHide [] [] rfl rfl ?_ ?_ hmt
    · intro x hx
      rw [List.mem_singleton.mp hx]
      intro h
      cases h
    · intro kv hkv
      cases hkv
  · refine config_error_timing.2.2.1 emptyHeap c5cfg rfl hmt ?_ hmt
    intro kv hkv
    rw [List.mem_singleton.mp hkv]
    intro h
    cases h
  · exact config_error_timing.2.2.2 emptyHeap c5wk ['m'] []
      [] (normalizeString ['m']) rfl (by intro kv hkv; cases hkv) (by decide)

/-! ### From-list theorems (claim C6) -/

theorem head?_filter (p : α → Bool) :
    ∀ l : List α, (l.filter p).head? = l.find? p := by
  intro l
  induction l with
  | nil => rfl
  | cons a l ih => by_cases h : p a <;> simp [List.filter_cons, List.find?, h, ih]

theorem mem_expand_some (m : PyModule) (fromlist : List Name) (l : List Name)
    (hall : m.allAttr = some l) (c : Name) :
    c ∈ expand_fromlist m fromlist ↔
      ((∃ nm, nm ∈ fromlist ∧ nm ≠ ['*'] ∧ c = qualify m.mname nm) ∨
        (['*'] ∈ fromlist ∧ ∃ o, o ∈ l ∧ c = qualify m.mname o)) := by
  rw [expand_fromlist, List.mem_flatMap]
  simp only [hall]
  constructor
  · rintro ⟨nm, hnm, hc⟩
    by_cases hstar : nm = ['*']
    · subst hstar
      rw [if_pos rfl, List.mem_map] at hc
      obtain ⟨o, ho, rfl⟩ := hc
      exact Or.inr ⟨hnm, o, ho, rfl⟩
    · rw [if_neg hstar, List.mem_singleton] at hc
      subst hc
      exact Or.inl ⟨nm, hnm, hstar, rfl⟩
  · rintro (⟨nm, hnm, hne, rfl⟩ | ⟨hstar, o, ho, rfl⟩)
    · refine ⟨nm, hnm, ?_⟩
      rw [if_neg hne]
      exact List.mem_singleton.mpr rfl
    · refine ⟨['*'], hstar, ?_⟩
      rw [if_pos rfl]
      exact List.mem_map.mpr ⟨o, ho, rfl⟩

theorem mem_expand_none (m : PyModule) (fromlist : List Name)
    (hall : m.allAttr = none) (c : Name) :
    c ∈ expand_fromlist m fromlist ↔
      ((∃ nm, nm ∈ fromlist ∧ nm ≠ ['*'] ∧ c = qualify m.mname nm) ∨
        (['*'] ∈ fromlist ∧ ∃ o, o ∈ m.attrs.map Prod.fst ∧
          startsUnderscore o = false ∧ c = qualify m.mname o)) := by
  rw [expand_fromlist, List.mem_flatMap]
  simp only [hall]
  constructor
  · rintro ⟨nm, hnm, hc⟩
    by_cases hstar : nm = ['*']
    · subst hstar
      rw [if_pos rfl, List.mem_map] at hc
      obtain ⟨o, ho, rfl⟩ := hc
      rw [List.mem_filter] at ho
      refine Or.inr ⟨hnm, o, ?_, ?_, rfl⟩
      · rw [dirList, List.mem_mergeSort] at ho
        exact ho.1
      · simpa using ho.2
    · rw [if_neg hstar, List.mem_singleton] at hc
      subst hc
      exact Or.inl ⟨nm, hnm, hstar, rfl⟩
  · rintro (⟨nm, hnm, hne, rfl⟩ | ⟨hstar, o, ho, hu, rfl⟩)
    · refine ⟨nm, hnm, ?_⟩
      rw [if_neg hne]
      exact List.mem_singleton.mpr rfl
    · refine ⟨['*'], hstar, ?_⟩
      rw [if_pos rfl]
      refine List.mem_map.mpr ⟨o, ?_, rfl⟩
      rw [List.mem_filter, dirList, List.mem_mergeSort]
      exact ⟨ho, by simp [hu]⟩

theorem wrapper_hf_fail (wk : Worker)
    (priorHF : PyModule → List Name → Bool → Except PyExc Addr)
    (m : PyModule) (fromlist : List Name) (recursive : Bool)
    (pre : List Name) (c : Name) (post : List Name)
    (hexp : expand_fromlist m fromlist = pre ++ c :: post)
    (hpre : ∀ x ∈ pre, is_fail_match wk x = false)
    (hc : is_fail_match wk c = true) :
    wrapper_handle_fromlist wk priorHF m fromlist recursive =
      Except.error (raise_exception wk.fail_exception c) := by
  have hcons : List.find? (fun n => is_fail_match wk n) (c :: post) = some c :=
    List.find?_cons_of_pos post hc
  unfold wrapper_handle_fromlist get_fromlist_matches
  rw [head?_filter, hexp, List.find?_append,
    List.find?_eq_none.mpr (fun x hx => by simp [hpre x hx]), Option.none_or,
    hcons]

theorem wrapper_hf_delegate (wk : Worker)
    (priorHF : PyModule → List Name → Bool → Except PyExc Addr)
    (m : PyModule) (fromlist : List Name) (recursive : Bool)
    (hnone : ∀ x ∈ expand_fromlist m fromlist, is_fail_match wk x = false) :
    wrapper_handle_fromlist wk priorHF m fromlist recursive =
      priorHF m fromlist recursive := by
  unfold wrapper_handle_fromlist get_fromlist_matches
  rw [head?_filter, List.find?_eq_none.mpr (fun x hx => by simp [hnone x hx])]

/-- C6: in the `resolveMembers` wrapper, (1)–(2) the expanded candidate
set is exactly the fully qualified entries — a `"*"` entry contributing
`module.<o>` for every `o` in the explicit export list when present, else
for every visible attribute name not starting with an underscore, and any
other entry `nm` contributing `module.<nm>`; (3) when the expansion splits
as `pre ++ c :: post` with no fail match in `pre` and `c` failing (i.e.
`c` is the first match in expansion order), the configured exception is
raised with `c`'s full name; (4) when no candidate matches the fail set,
the call delegates to the captured prior hook with the module, the
from-list and the `recursive` flag passed through unmodified. -/
theorem fromlist_fail_spec (wk : Worker)
    (priorHF : PyModule → List Name → Bool → Except PyExc Addr)
    (m : PyModule) (fromlist : List Name) (recursive : Bool) :
    (∀ l, m.allAttr = some l → ∀ c,
      (c ∈ expand_fromlist m fromlist ↔
        ((∃ nm, nm ∈ fromlist ∧ nm ≠ ['*'] ∧ c = qualify m.mname nm) ∨
          (['*'] ∈ fromlist ∧ ∃ o, o ∈ l ∧ c = qualify m.mname o)))) ∧
    (m.allAttr = none → ∀ c,
      (c ∈ expand_fromlist m fromlist ↔
        ((∃ nm, nm ∈ fromlist ∧ nm ≠ ['*'] ∧ c = qualify m.mname nm) ∨
          (['*'] ∈ fromlist ∧ ∃ o, o ∈ m.attrs.map Prod.fst ∧
            startsUnderscore o = false ∧ c = qualify m.mname o)))) ∧
    (∀ (pre : List Name) (c : Name) (post : List Name),
      expand_fromlist m fromlist = pre ++ c :: post →
      (∀ x ∈ pre, is_fail_match wk x = false) →
      is_fail_match wk c = true →
      wrapper_handle_fromlist wk priorHF m fromlist recursive =
        Except.error (raise_exception wk.fail_exception c)) ∧
    ((∀ x ∈ expand_fromlist m fromlist, is_fail_match wk x = false) →
      wrapper_handle_fromlist wk priorHF m fromlist recursive =
        priorHF m fromlist recursive) :=
  ⟨fun l hall => mem_expand_some m fromlist l hall,
    fun hall => mem_expand_none m fromlist hall,
    fun pre c post => wrapper_hf_fail wk priorHF m fromlist recursive pre c post,
    wrapper_hf_delegate wk priorHF m fromlist recursive⟩

/-- Witness for `fromlist_fail_spec`: on the module `pkg` (named `"p"`,
no `__all__`, one attribute `t`), the from-list `["t"]` expands to
`["p.t"]` which matches the fail set and raises with that full name, the
from-list `["o"]` has no failing candidate and delegates with the
`recursive` flag intact, and the wildcard-free membership characterization
places `"p.o"` in the expansion of `["o"]`. -/
theorem fromlist_fail_spec_witness :
    expand_fromlist c6pkg [['t']] = [] ++ ['p', '.', 't'] :: [] ∧
      is_fail_match c6wk ['p', '.', 't'] = true ∧
      wrapper_handle_fromlist c6wk c6prior c6pkg [['t']] false =
        Except.error (raise_exception c6wk.fail_exception ['p', '.', 't']) ∧
      (∀ x ∈ expand_fromlist c6pkg [['o']], is_fail_match c6wk x = false) ∧
      wrapper_handle_fromlist c6wk c6prior c6pkg [['o']] true =
        c6prior c6pkg [['o']] true ∧
      ['p', '.', 'o'] ∈ expand_fromlist c6pkg [['o']] := by
  have h1 := fromlist_fail_spec c6wk c6prior c6pkg [['t']] false
  have h2 := fromlist_fail_spec c6wk c6prior c6pkg [['o']] true
  refine ⟨rfl, by decide, ?_, ?_, ?_, ?_⟩
  · exact h1.2.2.1 [] ['p', '.', 't'] [] rfl (by intro x hx; cases hx) (by decide)
  · intro x hx
    rw [List.mem_singleton.mp hx]
    decide
  · refine h2.2.2.2 ?_
    intro x hx
    rw [List.mem_singleton.mp hx]
    decide
  · exact (h2.2.1 rfl ['p', '.', 'o']).mpr
      (Or.inl ⟨['o'], List.mem_singleton.mpr rfl, by decide, rfl⟩)

/-! ### Alias round-trip theorems (claim C1) -/

theorem takeWhile_ne_dot :
    ∀ (l : Name), '.' ∉ l → l.takeWhile (fun c => decide (c ≠ '.')) = l := by
  intro l
  induction l with
  | nil => intro h; rfl
  | cons c cs ih =>
    intro h
    have hc : c ≠ '.' := fun he => h (he ▸ List.mem_cons_self c cs)
    have hcs : '.' ∉ cs := fun hm => h (List.mem_cons_of_mem c hm)
    rw [List.takeWhile_cons, if_pos (by simp [hc]), ih hcs]

theorem rpartitionDot_no_dot {n : Name} (h : '.' ∉ n) :
    rpartitionDot n = ([], n) := by
  have hrev : '.' ∉ n.reverse := fun hm => h (List.mem_reverse.mp hm)
  unfold rpartitionDot
  rw [takeWhile_ne_dot n.reverse hrev, List.reverse_reverse]
  simp

theorem fake_parent_reset_ok {loaded : Addr} {attrib : Option Addr}
    {w0 w1 : WWorld} (h : fake_parent_reset loaded attrib w0 = Except.ok w1) :
    w1.sysModules = w0.sysModules ∧
      ∀ a, ((w1.heap a).mname = (w0.heap a).mname ∧
        (w1.heap a).spec = (w0.heap a).spec) := by
  unfold fake_parent_reset at h
  cases hsp : (w0.heap loaded).spec with
  | none =>
    rw [hsp] at h
    dsimp only [] at h
    injection h with h
    subst h
    exact ⟨rfl, fun a => ⟨rfl, rfl⟩⟩
  | some sp =>
    rw [hsp] at h
    dsimp only [] at h
    by_cases hpar : sp.parent ≠ []
    case neg =>
      rw [if_neg hpar] at h
      injection h with h
      subst h
      exact ⟨rfl, fun a => ⟨rfl, rfl⟩⟩
    case pos =>
      rw [if_pos hpar] at h
      cases hpa : w0.sysModules sp.parent with
      | none =>
        rw [hpa] at h
        simp at h
      | some pa =>
        rw [hpa] at h
        dsimp only [] at h
        cases attrib with
        | none =>
          cases hdel : attrDel (w0.heap pa).attrs
              (rpartitionDot (w0.heap loaded).mname).2 with
          | none =>
            rw [hdel] at h
            simp at h
          | some l =>
            rw [hdel] at h
            injection h with h
            subst h
            refine ⟨rfl, fun a => ?_⟩
            unfold WWorld.updHeap
            by_cases ha : a = pa <;> simp [ha]
        | some v =>
          injection h with h
          subst h
          refine ⟨rfl, fun a => ?_⟩
          unfold WWorld.updHeap
          by_cases ha : a = pa <;> simp [ha]

theorem fake_nodot (recurse : Name → WWorld → Except PyExc (WWorld × Addr))
    (loaded : Addr) (X : Name) (attrib : Option Addr) (w w6 : WWorld)
    (hX : rpartitionDot X = ([], X))
    (hfake : fake_loaded_module_data recurse loaded X attrib w = Except.ok w6) :
    w6.sysModules X = some loaded ∧ (w6.heap loaded).mname = X ∧
      ∀ n, n ≠ X → w6.sysModules n = w.sysModules n := by
  unfold fake_loaded_module_data at hfake
  dsimp only [] at hfake
  rw [hX] at hfake
  dsimp only [] at hfake
  by_cases hname : ((w.setMod X loaded).heap loaded).mname = X
  · rw [if_pos hname] at hfake
    injection hfake with hfake
    subst hfake
    refine ⟨by simp [WWorld.setMod], hname, ?_⟩
    intro n hn
    simp [WWorld.setMod, hn]
  · rw [if_neg hname] at hfake
    cases hpr : fake_parent_reset loaded attrib (w.setMod X loaded) with
    | error e =>
      rw [hpr] at hfake
      simp at hfake
    | ok w1 =>
      rw [hpr] at hfake
      have hinv := fake_parent_reset_ok hpr
      simp only [ne_eq, not_true_eq_false, if_false, ite_false,
        reduceCtorEq] at hfake
      injection hfake with hfake
      subst hfake
      refine ⟨?_, ?_, ?_⟩
      · show w1.sysModules X = some loaded
        rw [hinv.1]
        simp [WWorld.setMod]
      · simp [WWorld.updHeap]
      · intro n hn
        show w1.sysModules n = _
        rw [hinv.1]
        simp [WWorld.setMod, hn]

theorem load_and_restore_sys (wk : Worker) (prior : PriorFAL)
    (isHidden : Name → Bool) (ntl : Name) (w1 : WWorld) (p5 : WWorld × Addr)
    (h : load_and_restore wk prior isHidden ntl w1 = Except.ok p5) :
    p5.1.sysModules ntl = w1.sysModules ntl := by
  unfold load_and_restore at h
  dsimp only [] at h
  by_cases hcond : (wk.sub_module_reload || isHidden ntl) = true
  · rw [if_pos hcond] at h
    dsimp only [] at h
    cases hp : prior ntl (w1.popMod ntl) with
    | error e =>
      rw [hp] at h
      simp at h
    | ok p3 =>
      rw [hp] at h
      dsimp only [] at h
      cases hmv : w1.sysModules ntl with
      | none =>
        rw [hmv] at h
        dsimp only [] at h
        injection h with h
        subst h
        simp [WWorld.popMod, hmv]
      | some mv =>
        rw [hmv] at h
        dsimp only [] at h
        injection h with h
        subst h
        simp [WWorld.setMod, hmv]
  · rw [if_neg hcond] at h
    dsimp only [] at h
    cases hp : prior ntl w1 with
    | error e =>
      rw [hp] at h
      simp at h
    | ok p3 =>
      rw [hp] at h
      dsimp only [] at h
      cases hmv : w1.sysModules ntl with
      | none =>
        rw [hmv] at h
        dsimp only [] at h
        injection h with h
        subst h
        simp [WWorld.popMod, hmv]
      | some mv =>
        rw [hmv] at h
        dsimp only [] at h
        injection h with h
        subst h
        simp [WWorld.setMod, hmv]

/-- C1, amended: for a resolve call through the wrapper in which the
requested name `X` matches a substitution rule resolving to target `Y`,
`X ≠ Y`, `X` matches no fail matcher, `X` contains no dot, and the
attribute-capture pre-resolution of `Y`'s parent (performed through the
prior hook when `Y` is dotted) does not disturb `Y`'s registry entry:
when the call returns normally, the registry maps `X` to the returned
module, the returned module's `__name__` equals `X`, and `Y`'s registry
entry is exactly its pre-call state (same handle or still absent). -/
theorem alias_roundtrip_amended (wk : Worker) (prior : PriorFAL)
    (isHidden : Name → Bool) (fuel : Nat) (X Y : Name) (w0 wend : WWorld)
    (r : Addr)
    (hfail : is_fail_match wk X = false)
    (hsub : get_sub_match wk w0.heap X = Except.ok Y)
    (hne : X ≠ Y)
    (hX : '.' ∉ X)
    (hYattr : ∀ w2 a, (rpartitionDot Y).1 ≠ [] →
      prior (rpartitionDot Y).1 w0 = Except.ok (w2, a) →
      w2.sysModules Y = w0.sysModules Y)
    (hrun : wrapper_find_and_load wk prior isHidden (fuel + 1) X w0 =
      Except.ok (wend, r)) :
    wend.sysModules X = some r ∧ (wend.heap r).mname = X ∧
      wend.sysModules Y = w0.sysModules Y := by
  have hXr : rpartitionDot X = ([], X) := rpartitionDot_no_dot hX
  have hfinish : ∀ (av : Option Addr) (w5 : WWorld) (res : Addr),
      fake_loaded_module_data
        (fun n w2 => wrapper_find_and_load wk prior isHidden fuel n w2)
        res X av w5 = Except.ok wend →
      res = r →
      w5.sysModules Y = w0.sysModules Y →
      wend.sysModules X = some r ∧ (wend.heap r).mname = X ∧
        wend.sysModules Y = w0.sysModules Y := by
    intro av w5 res hfk hres hY5
    have h3 := fake_nodot _ res X av w5 wend hXr hfk
    rw [hres] at h3
    exact ⟨h3.1, h3.2.1, (h3.2.2 Y (fun he => hne he.symm)).trans hY5⟩
  unfold wrapper_find_and_load at hrun
  have hfail2 : ¬(is_fail_match wk X = true) := by simp [hfail]
  rw [if_neg hfail2] at hrun
  rw [hsub] at hrun
  dsimp only [] at hrun
  rw [if_pos hne] at hrun
  unfold get_attrib at hrun
  dsimp only [] at hrun
  by_cases hYd : (rpartitionDot Y).1 = []
  · rw [if_neg (fun hcon => hcon hYd)] at hrun
    dsimp only [] at hrun
    cases hlr : load_and_restore wk prior isHidden Y w0 with
    | error e =>
      rw [hlr] at hrun
      simp at hrun
    | ok p5 =>
      rw [hlr] at hrun
      dsimp only [] at hrun
      cases hfk : fake_loaded_module_data
          (fun n w2 => wrapper_find_and_load wk prior isHidden fuel n w2)
          p5.2 X none p5.1 with
      | error e =>
        rw [hfk] at hrun
        simp at hrun
      | ok w6 =>
        rw [hfk] at hrun
        simp only [Except.ok.injEq, Prod.mk.injEq] at hrun
        obtain ⟨h6, hres⟩ := hrun
        subst h6
        exact hfinish none p5.1 p5.2 hfk hres
          (load_and_restore_sys wk prior isHidden Y w0 p5 hlr)
  · rw [if_pos hYd] at hrun
    cases hp : prior (rpartitionDot Y).1 w0 with
    | error e =>
      rw [hp] at hrun
      simp at hrun
    | ok p2 =>
      rw [hp] at hrun
      dsimp only [] at hrun
      have hw1Y : p2.1.sysModules Y = w0.sysModules Y :=
        hYattr p2.1 p2.2 hYd (by rw [hp])
      cases hlr : load_and_restore wk prior isHidden Y p2.1 with
      | error e =>
        rw [hlr] at hrun
        simp at hrun
      | ok p5 =>
        rw [hlr] at hrun
        dsimp only [] at hrun
        cases hfk : fake_loaded_module_data
            (fun n w2 => wrapper_find_and_load wk prior isHidden fuel n w2)
            p5.2 X (getattrD (p2.1.heap p2.2) (rpartitionDot Y).2) p5.1 with
        | error e =>
          rw [hfk] at hrun
          simp at hrun
        | ok w6 =>
          rw [hfk] at hrun
          simp only [Except.ok.injEq, Prod.mk.injEq] at hrun
          obtain ⟨h6, hres⟩ := hrun
          subst h6
          exact hfinish _ p5.1 p5.2 hfk hres
            ((load_and_restore_sys wk prior isHidden Y p2.1 p5 hlr).trans hw1Y)

/-- Witness for `alias_roundtrip_amended`: the worker `c1wk` substitutes
the requested `"x"` by `"z"`, the prior loader installs the module at
address 1, and the run ends with `sys.modules["x"]` holding that module,
its `__name__` rewritten to `"x"`, and `"z"`'s registry entry as absent as
it was before the call. -/
theorem alias_roundtrip_amended_witness :
    is_fail_match c1wk ['x'] = false ∧
      get_sub_match c1wk c1w0.heap ['x'] = Except.ok ['z'] ∧
      (['x'] : Name) ≠ ['z'] ∧
      '.' ∉ (['x'] : Name) ∧
      wrapper_find_and_load c1wk c1prior (fun _ => false) 1 ['x'] c1w0 =
        Except.ok (c1out.1, c1out.2) ∧
      (c1out.1.sysModules ['x'] = some c1out.2 ∧
        (c1out.1.heap c1out.2).mname = ['x'] ∧
        c1out.1.sysModules ['z'] = c1w0.sysModules ['z']) := by
  refine ⟨by decide, rfl, by decide, by decide, rfl, ?_⟩
  exact alias_roundtrip_amended c1wk c1prior (fun _ => false) 0 ['x'] ['z']
    c1w0 c1out.1 c1out.2 (by decide) rfl (by decide) (by decide)
    (fun w2 a hd hp => absurd rfl hd) rfl

/-- C1 fails as stated for dotted alias names: requesting `"p.q"`
(substituted to load `"z"`) completes normally, but the returned module's
`__name__` is set to the leaf segment `"q"`, not to the full requested
name `"p.q"` (only `__spec__.name` would receive the full name), so the
returned module's own identity does not equal the requested name. -/
theorem alias_roundtrip_counterexample :
    is_fail_match cxwk ['p', '.', 'q'] = false ∧
      get_sub_match cxwk cxw0.heap ['p', '.', 'q'] = Except.ok ['z'] ∧
      (['p', '.', 'q'] : Name) ≠ ['z'] ∧
      (wrapper_find_and_load cxwk cxprior (fun _ => false) 2
          ['p', '.', 'q'] cxw0).toOption.map
        (fun p => (p.1.heap p.2).mname) = some ['q'] ∧
      (['q'] : Name) ≠ ['p', '.', 'q'] := by
  refine ⟨by decide, rfl, by decide, by decide, by decide⟩

end TestImports
